import Mathlib

/-!
Verification of the natural-language specification of the `telegram-bot`
Rust crate (single source file `src/lib.rs`) against a shallow embedding of
its code in Lean 4.

The embedding models:
  * the `Bot` client state (`offset`, base `Url`);
  * request-URL composition (`send_request` lines 44-55: replace the last
    path segment with the method name, attach the encoded query pairs);
  * the response pipeline of `send_request` (transport error -> `Error::Http`,
    body-read error -> `Error::Io`, JSON decode error -> `Error::Json`,
    then the four-way envelope classification);
  * `get_me`, `get_updates` and the `long_poll` loop with its offset
    state machine and handler-invocation trace.

External collaborators (the HTTP transport, `rustc_serialize`'s
`json::decode`, the `url` crate's parser and query serializer) are modelled
as explicit inputs: a `Fetched` outcome stands for what the transport
produced, and a `decode` function parameter stands for `json::decode`.
The crate's modules `types.rs` and `util.rs` are not in the sources; the
types they declare (`Update`, `User`, `Response`, `Params`, and the crate's
integer alias, modelled as `Int` since the spec §6 only says the parameters
are integer-valued) are modelled from the spec where so marked.
-/

namespace TelegramBot

/-- Modelled from the spec: `types.rs` is missing from the sources. An update
record "contains at minimum an `update_id` ... and a payload" (§3); the
payload fields are excluded domain data (§1), so only `update_id` is kept. -/
structure Update where
  update_id : Int
deriving DecidableEq, Repr

/-- Modelled from the spec: `types.rs` is missing from the sources. `getMe`
"returns a user record" (§6); its fields are excluded domain data (§1). -/
structure User where
  id : Int
deriving DecidableEq, Repr

/-- Modelled from the spec: `types.rs` is missing from the sources. The wire
response envelope `{ok: bool, result?: T, description?: string}` (§3, §6),
the decode target of `send_request`. -/
structure Response (T : Type) where
  ok : Bool
  result : Option T
  description : Option String
deriving DecidableEq, Repr

/-- The `Error` enum of `lib.rs` (lines 156-163). The payloads of `Http`,
`Io` and `Json` are external error types (`hyper::error::Error`,
`std::io::Error`, `json::DecoderError`), modelled as their diagnostic
strings. -/
inductive Error where
  | Http (e : String)
  | Io (e : String)
  | Json (e : String)
  | Api (desc : String)
  | InvalidState (msg : String)
deriving DecidableEq, Repr

/-- Model of the external `hyper::Url` value as used by `lib.rs`: a scheme
and host part, an optional list of path segments (`url.path_mut()` yields
`Option<&mut [String]>`), and an optional query. The query is held as the
pair list handed to `set_query_from_pairs`. -/
structure Url where
  scheme : String
  host : String
  path : Option (List String)
  query : Option (List (String × String))
deriving DecidableEq, Repr

/-- Rendering of a `Url` back to its text: scheme, host, one `/`-prefixed
path segment each, and (spec §6: standard query encoding) a `?`-prefixed
`&`-separated `k=v` query when one is set. -/
def Url.render (u : Url) : String :=
  u.scheme ++ "://" ++ u.host
    ++ String.join ((u.path.getD []).map (fun s => "/" ++ s))
    ++ (match u.query with
        | none => ""
        | some ps => "?" ++ String.intercalate "&" (ps.map (fun p => p.1 ++ "=" ++ p.2)))

/-- Modelled from the spec: `util.rs` (the `Params` type) is missing from the
sources. It is an ordered sequence of (name, value) string pairs (§3). -/
structure Params where
  params : List (String × String)
deriving DecidableEq, Repr

/-- Modelled from the spec: fresh empty parameter set (`Params::new()`). -/
def Params.new : Params := ⟨[]⟩

/-- Modelled from the spec: the accessor `get_params` used by `send_request`
line 54 returns the ordered pairs. -/
def Params.get_params (p : Params) : List (String × String) := p.params

/-- Modelled from the spec: `add_get_opt` (used by `get_updates` lines
108-110) appends `(name, stringified value)` when the optional value is
present and does nothing when it is absent, preserving insertion order
(§4.1: "produce the subset with present values, each converted to its
string representation, preserving caller-specified order"). -/
def Params.add_get_opt (p : Params) (name : String) (v : Option Int) : Params :=
  match v with
  | some x => ⟨p.params ++ [(name, toString x)]⟩
  | none => p

/-- Folding a whole (name, optional value) input list into a parameter set,
in caller order; the iterated form of `add_get_opt` used to state the
Parameter Encoder contract (§4.1). -/
def Params.add_all (p : Params) (inputs : List (String × Option Int)) : Params :=
  inputs.foldl (fun acc nv => acc.add_get_opt nv.1 nv.2) p

/-- The `Bot` client state (`lib.rs` lines 19-23): the update offset and the
base authenticated endpoint. The `hyper::Client` transport handle carries no
modelled state. -/
structure Bot where
  offset : Int
  url : Url
deriving DecidableEq, Repr

/-- `Bot::new` (lines 30-40): parse the endpoint built from the token; on
parse failure the code panics (`panic!("Invalid token! ...")`), modelled as
`none`; on success the bot starts with `offset = 0`. The external
`Url::parse` outcome is the explicit input. -/
def Bot.new (parsed : Except String Url) : Option Bot :=
  match parsed with
  | .ok url => some { offset := 0, url := url }
  | .error _ => none

/-- The last-segment replacement of `send_request` lines 47-51:
`path.last_mut().map(|last| *last = method)` — replace the final element if
the list is non-empty, leave an empty list unchanged. -/
def set_last : List String → String → List String
  | [], _ => []
  | [_], m => [m]
  | x :: y :: rest, m => x :: set_last (y :: rest) m

/-- URL composition of `send_request` lines 44-55: clone the base endpoint,
change the last path fragment to the method name (only if there is a path;
only if it is non-empty), then set the query from the parameter pairs.
The external `set_query_from_pairs` serializer is modelled from the spec
(§6, §8: empty parameters produce no query string). -/
def compose_url (url : Url) (method : String) (ps : List (String × String)) : Url :=
  { url with
    path := url.path.map (fun p => set_last p method),
    query := if ps.isEmpty then none else some ps }

/-- Outcome of the external transport exchange in `send_request`:
`req.send()` failed (line 63, -> `Error::Http`), `read_to_string` failed
(line 69, -> `Error::Io`), or a body string was obtained. -/
inductive Fetched where
  | sendErr (e : String)
  | readErr (e : String)
  | body (s : String)
deriving DecidableEq, Repr

/-- The envelope classification of `send_request` lines 73-89, the Rust
`match` on `json::decode(&body)` translated arm for arm. -/
def classify_response {T : Type} (d : Except String (Response T)) : Except Error T :=
  match d with
  | .error e => .error (Error.Json e)
  | .ok ⟨false, _, some desc⟩ => .error (Error.Api desc)
  | .ok ⟨true, some res, _⟩ => .ok res
  | .ok _ => .error (Error.InvalidState "Invalid server response")

/-- The full result pipeline of `send_request` lines 61-89 for a given
transport outcome: transport failure -> `Http`, body-read failure -> `Io`,
otherwise classify the decoded body. `decode` stands for the external
`json::decode`. -/
def request_outcome {T : Type} (decode : String → Except String (Response T))
    (f : Fetched) : Except Error T :=
  match f with
  | .sendErr e => .error (Error.Http e)
  | .readErr e => .error (Error.Io e)
  | .body s => classify_response (decode s)

/-- `Bot::send_request` (lines 42-90): compose the request URL from the clone
of the base endpoint, then run the transport/decode pipeline. It takes
`&mut self` but never writes any field, so the bot is returned unchanged. -/
def Bot.send_request {T : Type} (decode : String → Except String (Response T))
    (b : Bot) (method : String) (p : Params) (f : Fetched) : Bot × Except Error T :=
  let _url := compose_url b.url method p.get_params
  (b, request_outcome decode f)

/-- `Bot::get_me` (lines 93-96): `send_request("getMe", Params::new())`. -/
def Bot.get_me (decode : String → Except String (Response User))
    (b : Bot) (f : Fetched) : Bot × Except Error User :=
  b.send_request decode "getMe" Params.new f

/-- `Bot::get_updates` (lines 103-114): build the three optional parameters
and call `send_request("getUpdates", params)`. -/
def Bot.get_updates (decode : String → Except String (Response (List Update)))
    (b : Bot) (offset limit timeout : Option Int) (f : Fetched)
    : Bot × Except Error (List Update) :=
  let params :=
    ((Params.new.add_get_opt "offset" offset).add_get_opt "limit" limit).add_get_opt
      "timeout" timeout
  b.send_request decode "getUpdates" params f

/-- One recorded handler invocation of the `long_poll` dispatch loop:
the bot offset the handler observes when it is called (`handler(self, u)`
runs after the conditional advance), whether this update advanced the
offset (`u.update_id >= self.offset` held on entry), and the update. -/
structure HandlerCall where
  offset : Int
  advanced : Bool
  update : Update
deriving DecidableEq, Repr

/-- The conditional offset advance of `long_poll` lines 142-144: if
`u.update_id >= self.offset` then `self.offset = u.update_id + 1`. -/
def advance (offset : Int) (u : Update) : Int :=
  if offset ≤ u.update_id then u.update_id + 1 else offset

/-- The dispatch for-loop of `long_poll` (lines 141-147): for every update,
conditionally advance the offset, then the handler is invoked
(unconditionally) with the current bot state. Returns the final offset and
the trace of handler invocations. -/
def dispatch_updates : Int → List Update → Int × List HandlerCall
  | offset, [] => (offset, [])
  | offset, u :: rest =>
    ((dispatch_updates (advance offset u) rest).1,
      ⟨advance offset u, decide (offset ≤ u.update_id), u⟩
        :: (dispatch_updates (advance offset u) rest).2)

/-- Several poll batches dispatched in sequence by the `long_poll` loop,
threading the offset and concatenating the handler traces. -/
def process_batches : Int → List (List Update) → Int × List HandlerCall
  | offset, [] => (offset, [])
  | offset, b :: rest =>
    ((process_batches (dispatch_updates offset b).1 rest).1,
      (dispatch_updates offset b).2 ++ (process_batches (dispatch_updates offset b).1 rest).2)

/-- The update identifiers of the handler calls that advanced the offset:
the updates "advanced past" in the sense of the spec's offset invariant. -/
def advanced_ids (tr : List HandlerCall) : List Int :=
  tr.filterMap (fun c => if c.advanced then some c.update.update_id else none)

/-- The body of the `long_poll` loop (lines 135-148) over a finite list of
transport outcomes, one per poll: each iteration calls
`get_updates(Some(self.offset), None, timeout)`; `try!` returns the first
error to the caller (remaining outcomes are never consumed); a successful
batch is dispatched and the loop continues with the advanced offset. An
exhausted outcome list means the loop is still polling (`none` error). -/
def long_poll_loop (decode : String → Except String (Response (List Update)))
    (b : Bot) (timeout : Option Int) (polls : List Fetched)
    : Bot × List HandlerCall × Option Error :=
  match polls with
  | [] => (b, [], none)
  | f :: rest =>
    match (b.get_updates decode (some b.offset) none timeout f).2 with
    | .error e => (b, [], some e)
    | .ok us =>
      ((long_poll_loop decode { b with offset := (dispatch_updates b.offset us).1 } timeout rest).1,
        (dispatch_updates b.offset us).2
          ++ (long_poll_loop decode { b with offset := (dispatch_updates b.offset us).1 } timeout rest).2.1,
        (long_poll_loop decode { b with offset := (dispatch_updates b.offset us).1 } timeout rest).2.2)

/-- `Bot::long_poll` (lines 129-149): resolve the timeout (given or the
default 30, line 133) and run the polling loop. -/
def Bot.long_poll (decode : String → Except String (Response (List Update)))
    (b : Bot) (timeout : Option Int) (polls : List Fetched)
    : Bot × List HandlerCall × Option Error :=
  long_poll_loop decode b (some (match timeout with | some t => t | none => 30)) polls

/-- The spec's four-step classification algorithm (§4.4), written from the
spec's words for refinement comparison against `classify_response`:
1. body did not parse -> decode error with the parse diagnostic;
2. else `ok == false` and `description` present -> API error with it;
3. else `ok == true` and `result` present -> success with the result;
4. else -> invalid-state error. -/
def spec_classify {T : Type} (d : Except String (Response T)) : Except Error T :=
  match d with
  | .error e => .error (Error.Json e)
  | .ok r =>
    if h : r.ok = false ∧ r.description.isSome = true then
      .error (Error.Api (r.description.get h.2))
    else if h : r.ok = true ∧ r.result.isSome = true then
      .ok (r.result.get h.2)
    else
      .error (Error.InvalidState "Invalid server response")

/-- A concrete well-formed base endpoint, as `Bot::new` builds one:
`https://<api-host>/bot<token>/dummy`. -/
def sample_url : Url :=
  { scheme := "https", host := "api.telegram.org",
    path := some ["bot123:ABC", "dummy"], query := none }

/-- A freshly constructed client over `sample_url` (offset 0). -/
def sample_bot : Bot := { offset := 0, url := sample_url }

/-- A concrete stand-in for `json::decode` on `Vec<Update>` responses, used
to run the embedded loop on the spec's end-to-end poll scenario (§8): body
"batch1" decodes to updates 5 and 6, body "batch2" to updates 6 and 7,
anything else is a parse failure. -/
def sample_decode : String → Except String (Response (List Update)) :=
  fun s =>
    if s = "batch1" then .ok { ok := true, result := some [⟨5⟩, ⟨6⟩], description := none }
    else if s = "batch2" then .ok { ok := true, result := some [⟨6⟩, ⟨7⟩], description := none }
    else .error "invalid JSON"

/-- The base endpoint of the spec's endpoint-composition example (§8):
`https://api.example.org/bot123:ABC/dummy`. -/
def example_url : Url :=
  { scheme := "https", host := "api.example.org",
    path := some ["bot123:ABC", "dummy"], query := none }

/-! ## Theorems -/

/-- Replacing the last element of a non-empty segment list, in append form. -/
theorem set_last_append (p : List String) (last m : String) :
    set_last (p ++ [last]) m = p ++ [m] := by
  induction p with
  | nil => rfl
  | cons x xs ih =>
    cases xs with
    | nil => rfl
    | cons y ys => simpa [set_last] using ih

/-- C1: for every response body, `send_request` classifies the outcome into
exactly the spec's four ordered, non-overlapping cases: decode error with
the parse diagnostic; else API error when `ok == false` with a description;
else success when `ok == true` with a result; else an invalid-state error.
Stated as: the code's classification equals the spec's ordered four-step
classification, and the API-error and success guard conditions can never
hold simultaneously. -/
theorem send_request_four_way_classification :
    (∀ (T : Type) (d : Except String (Response T)), classify_response d = spec_classify d)
    ∧ (∀ (T : Type) (r : Response T),
        ¬((r.ok = false ∧ r.description.isSome = true)
          ∧ (r.ok = true ∧ r.result.isSome = true))) := by
  constructor
  · intro T d
    cases d with
    | error e => rfl
    | ok r =>
      obtain ⟨okb, res, desc⟩ := r
      cases okb <;> cases res <;> cases desc <;>
        simp [classify_response, spec_classify]
  · rintro T r ⟨⟨h1, -⟩, ⟨h2, -⟩⟩
    rw [h1] at h2
    exact Bool.noConfusion h2

/-- Witness for C1: the classification agreement evaluated at the concrete
envelope `{ok: false, description: "Unauthorized"}` (an API error). -/
theorem send_request_four_way_classification_at_instance :
    classify_response (T := Nat)
        (.ok { ok := false, result := none, description := some "Unauthorized" })
      = spec_classify
          (.ok { ok := false, result := none, description := some "Unauthorized" }) :=
  send_request_four_way_classification.1 Nat _

/-- C6: the composed request URL is the base endpoint with its final path
segment replaced by the method name and the encoded parameters as query
(none when they are empty); a base with no path segments at all composes
without failing, path unmodified; and the spec's concrete example
(`https://api.example.org/bot123:ABC/dummy` + `getMe` + no parameters
-> `https://api.example.org/bot123:ABC/getMe`) holds. -/
theorem compose_url_replaces_final_segment :
    (∀ (u : Url) (m : String) (ps : List (String × String)) (p : List String) (last : String),
        u.path = some (p ++ [last]) →
        (compose_url u m ps).path = some (p ++ [m]))
    ∧ (∀ (u : Url) (m : String) (ps : List (String × String)),
        u.path = none → (compose_url u m ps).path = none)
    ∧ (∀ (u : Url) (m : String) (ps : List (String × String)),
        u.path = some [] → (compose_url u m ps).path = some [])
    ∧ (∀ (u : Url) (m : String) (ps : List (String × String)),
        (compose_url u m ps).query = if ps.isEmpty then none else some ps)
    ∧ Url.render example_url = "https://api.example.org/bot123:ABC/dummy"
    ∧ Url.render (compose_url example_url "getMe" [])
        = "https://api.example.org/bot123:ABC/getMe" := by
  refine ⟨?_, ?_, ?_, fun u m ps => rfl, rfl, rfl⟩
  · intro u m ps p last h
    simp [compose_url, h, set_last_append]
  · intro u m ps h
    simp [compose_url, h]
  · intro u m ps h
    simp [compose_url, h, set_last]

/-- Witness for C6: the final-segment replacement applied to the concrete
example base (path `["bot123:ABC", "dummy"]`, method `getMe`). -/
theorem compose_url_replaces_final_segment_at_instance :
    (compose_url example_url "getMe" []).path = some (["bot123:ABC"] ++ ["getMe"]) :=
  compose_url_replaces_final_segment.1 example_url "getMe" [] ["bot123:ABC"] "dummy" rfl

/-- The encoder fold in append form: folding a (name, optional value) input
list onto any parameter set appends exactly the present pairs in order. -/
theorem params_add_all_get_params (p : Params) (inputs : List (String × Option Int)) :
    (p.add_all inputs).get_params
      = p.params ++ inputs.filterMap (fun nv => nv.2.map (fun x => (nv.1, toString x))) := by
  induction inputs generalizing p with
  | nil => simp [Params.add_all, Params.get_params]
  | cons nv rest ih =>
    obtain ⟨name, v⟩ := nv
    cases v with
    | none => simpa [Params.add_all, Params.add_get_opt] using ih p
    | some x => simpa [Params.add_all, Params.add_get_opt] using ih ⟨p.params ++ [(name, toString x)]⟩

/-- C7: the encoded parameter set contains exactly the pairs whose value is
present, in caller order, each value in its exact string form; in
particular integer 42 encodes as "42" and absent values are omitted. -/
theorem parameter_encoding_present_values_in_order :
    (∀ (inputs : List (String × Option Int)),
        (Params.new.add_all inputs).get_params
          = inputs.filterMap (fun nv => nv.2.map (fun x => (nv.1, toString x))))
    ∧ (Params.new.add_all [("offset", some 42), ("limit", none), ("timeout", some 30)]).get_params
        = [("offset", "42"), ("timeout", "30")] := by
  refine ⟨fun inputs => ?_, rfl⟩
  simpa [Params.new] using params_add_all_get_params Params.new inputs

/-- C8: the direct one-shot calls `get_me` and `get_updates` return the
client state unchanged (in particular the offset field); the `long_poll`
loop is what advances the offset (here: from 0 to 7 after a batch with
updates 5 and 6). -/
theorem one_shot_calls_leave_offset_unchanged :
    (∀ (decode : String → Except String (Response User)) (b : Bot) (f : Fetched),
        (Bot.get_me decode b f).1 = b)
    ∧ (∀ (decode : String → Except String (Response (List Update))) (b : Bot)
        (offset limit timeout : Option Int) (f : Fetched),
        (Bot.get_updates decode b offset limit timeout f).1 = b)
    ∧ sample_bot.offset = 0
    ∧ (Bot.long_poll sample_decode sample_bot none [.body "batch1"]).1.offset = 7 := by
  exact ⟨fun _ _ _ => rfl, fun _ _ _ _ _ _ => rfl, rfl, rfl⟩

/-- C9: constructing a client from a token whose endpoint does not parse
panics (modelled: `Bot.new` is `none` exactly on a parse failure, the sole
abort); every other failure is reported as a returned `Error` value:
transport failure -> `Http`, body-read failure -> `Io`, JSON parse
failure -> `Json`, each returned from `send_request`, never aborting. -/
theorem new_panics_only_on_invalid_url :
    (∀ (e : String), Bot.new (.error e) = none)
    ∧ (∀ (u : Url), Bot.new (.ok u) = some { offset := 0, url := u })
    ∧ (∀ (T : Type) (decode : String → Except String (Response T)) (b : Bot)
        (method : String) (p : Params) (e : String),
        Bot.send_request decode b method p (.sendErr e) = (b, .error (Error.Http e)))
    ∧ (∀ (T : Type) (decode : String → Except String (Response T)) (b : Bot)
        (method : String) (p : Params) (e : String),
        Bot.send_request decode b method p (.readErr e) = (b, .error (Error.Io e)))
    ∧ (∀ (T : Type) (decode : String → Except String (Response T)) (b : Bot)
        (method : String) (p : Params) (s e : String), decode s = .error e →
        Bot.send_request decode b method p (.body s) = (b, .error (Error.Json e))) := by
  refine ⟨fun e => rfl, fun u => rfl, fun T decode b method p e => rfl,
    fun T decode b method p e => rfl, fun T decode b method p s e h => ?_⟩
  simp [Bot.send_request, request_outcome, h, classify_response]

/-- Witness for C9: the parse-failure abort and the returned-error cases at
concrete inputs (a failed token parse; a body that is not valid JSON). -/
theorem new_panics_only_on_invalid_url_at_instance :
    Bot.new (.error "relative URL without a base") = none
    ∧ Bot.send_request sample_decode sample_bot "getUpdates" Params.new (.body "not json")
        = (sample_bot, .error (Error.Json "invalid JSON")) :=
  ⟨new_panics_only_on_invalid_url.1 "relative URL without a base",
   new_panics_only_on_invalid_url.2.2.2.2 (List Update) sample_decode sample_bot
     "getUpdates" Params.new "not json" "invalid JSON" rfl⟩

/-- C10: reading the response body can fail with `Error::Io`, a fifth error
kind that every public operation (`get_me`, `get_updates`, hence
`long_poll`) can return, distinct from the `Http`, `Json`, `Api` and
`InvalidState` kinds. -/
theorem io_error_is_fifth_error_kind :
    (∀ (decode : String → Except String (Response User)) (b : Bot) (e : String),
        (Bot.get_me decode b (.readErr e)).2 = .error (Error.Io e))
    ∧ (∀ (decode : String → Except String (Response (List Update))) (b : Bot)
        (offset limit timeout : Option Int) (e : String),
        (Bot.get_updates decode b offset limit timeout (.readErr e)).2 = .error (Error.Io e))
    ∧ (∀ (decode : String → Except String (Response (List Update))) (b : Bot)
        (timeout : Option Int) (rest : List Fetched) (e : String),
        (Bot.long_poll decode b timeout (.readErr e :: rest)).2.2 = some (Error.Io e))
    ∧ (∀ (e eo : String),
        Error.Io e ≠ Error.Http eo ∧ Error.Io e ≠ Error.Json eo
          ∧ Error.Io e ≠ Error.Api eo ∧ Error.Io e ≠ Error.InvalidState eo) :=
  ⟨fun _ _ _ => rfl, fun _ _ _ _ _ _ => rfl, fun _ _ _ _ _ => rfl,
   fun _ _ => ⟨nofun, nofun, nofun, nofun⟩⟩

/-- Witness for C10: an I/O body-read failure surfaced through `get_me` at a
concrete input. -/
theorem io_error_is_fifth_error_kind_at_instance :
    (Bot.get_me (fun _ => .error "bad") sample_bot (.readErr "connection aborted")).2
      = .error (Error.Io "connection aborted") :=
  io_error_is_fifth_error_kind.1 (fun _ => .error "bad") sample_bot "connection aborted"

/-- Unfolding: dispatching the empty batch. -/
theorem dispatch_updates_nil (off : Int) : dispatch_updates off [] = (off, []) := rfl

/-- Unfolding: dispatching one update then the rest — conditional advance
first, then the recorded handler invocation. -/
theorem dispatch_updates_cons (off : Int) (u : Update) (rest : List Update) :
    dispatch_updates off (u :: rest)
      = ((dispatch_updates (advance off u) rest).1,
          ⟨advance off u, decide (off ≤ u.update_id), u⟩
            :: (dispatch_updates (advance off u) rest).2) := rfl

/-- The conditional advance never decreases the offset. -/
theorem advance_le (off : Int) (u : Update) : off ≤ advance off u := by
  unfold advance
  split <;> omega

/-- The advanced-past identifiers of a one-call trace extension. -/
theorem advanced_ids_cons (c : HandlerCall) (tr : List HandlerCall) :
    advanced_ids (c :: tr)
      = (if c.advanced then [c.update.update_id] else []) ++ advanced_ids tr := by
  cases h : c.advanced <;> simp [advanced_ids, List.filterMap_cons, h]

/-- The advanced-past identifiers of a concatenated trace. -/
theorem advanced_ids_append (t1 t2 : List HandlerCall) :
    advanced_ids (t1 ++ t2) = advanced_ids t1 ++ advanced_ids t2 := by
  simp [advanced_ids, List.filterMap_append]

/-- Dispatching a batch never decreases the offset. -/
theorem dispatch_updates_mono (us : List Update) (off : Int) :
    off ≤ (dispatch_updates off us).1 := by
  induction us generalizing off with
  | nil => simp [dispatch_updates_nil]
  | cons u rest ih =>
    simp only [dispatch_updates_cons]
    exact le_trans (advance_le off u) (ih (advance off u))

/-- A batch that advanced past nothing left the offset where it was. -/
theorem dispatch_updates_advanced_nil (us : List Update) (off : Int)
    (h : advanced_ids (dispatch_updates off us).2 = []) :
    (dispatch_updates off us).1 = off := by
  induction us generalizing off with
  | nil => rfl
  | cons u rest ih =>
    simp only [dispatch_updates_cons, advanced_ids_cons] at h ⊢
    by_cases hle : off ≤ u.update_id
    · simp [hle] at h
    · have ha : advance off u = off := by simp [advance, hle]
      rw [ha] at h ⊢
      simp [hle] at h
      exact ih off h

/-- Every identifier advanced past in a batch ends strictly below the final
offset: `i + 1 ≤ final offset`. -/
theorem dispatch_updates_mem_advanced (us : List Update) (off : Int)
    (i : Int) (h : i ∈ advanced_ids (dispatch_updates off us).2) :
    i + 1 ≤ (dispatch_updates off us).1 := by
  induction us generalizing off with
  | nil => simp [dispatch_updates_nil, advanced_ids] at h
  | cons u rest ih =>
    simp only [dispatch_updates_cons, advanced_ids_cons] at h ⊢
    by_cases hle : off ≤ u.update_id
    · simp [hle] at h
      rcases h with h | h
      · subst h
        have hm := dispatch_updates_mono rest (advance off u)
        have ha : advance off u = u.update_id + 1 := by simp [advance, hle]
        omega
      · exact ih (advance off u) h
    · simp [hle] at h
      exact ih (advance off u) h

/-- A batch that advanced past something leaves the offset at exactly one
advanced identifier plus one (the last, hence largest, one). -/
theorem dispatch_updates_exists_last (us : List Update) (off : Int)
    (h : advanced_ids (dispatch_updates off us).2 ≠ []) :
    ∃ i ∈ advanced_ids (dispatch_updates off us).2,
      (dispatch_updates off us).1 = i + 1 := by
  induction us generalizing off with
  | nil => simp [dispatch_updates_nil, advanced_ids] at h
  | cons u rest ih =>
    simp only [dispatch_updates_cons, advanced_ids_cons] at h ⊢
    by_cases hle : off ≤ u.update_id
    · by_cases hnil : advanced_ids (dispatch_updates (advance off u) rest).2 = []
      · refine ⟨u.update_id, by simp [hle], ?_⟩
        have hfin := dispatch_updates_advanced_nil rest (advance off u) hnil
        have ha : advance off u = u.update_id + 1 := by simp [advance, hle]
        omega
      · obtain ⟨i, hi, hfin⟩ := ih (advance off u) hnil
        exact ⟨i, by simp [hle]; right; exact hi, hfin⟩
    · simp only [hle] at h ⊢
      simp at h ⊢
      exact ih (advance off u) (by simpa [hle] using h)

/-- C4: in the dispatch loop, when an update's identifier is at least the
current offset the offset is advanced to `identifier + 1` before the
handler runs, so every recorded handler invocation observes an offset
strictly greater than the update it is handling — and exactly
`identifier + 1` whenever the advance fired (the `advanced` flag records
that the guard `u.update_id >= self.offset` held on entry). -/
theorem offset_advanced_before_handler (us : List Update) (off : Int)
    (c : HandlerCall) (h : c ∈ (dispatch_updates off us).2) :
    c.update.update_id < c.offset
    ∧ (c.advanced = true → c.offset = c.update.update_id + 1) := by
  induction us generalizing off with
  | nil => simp [dispatch_updates_nil] at h
  | cons u rest ih =>
    simp only [dispatch_updates_cons, List.mem_cons] at h
    rcases h with h | h
    · subst h
      refine ⟨?_, ?_⟩
      · show u.update_id < advance off u
        unfold advance
        split <;> omega
      · intro ha
        have hle : off ≤ u.update_id := by simpa using ha
        show advance off u = u.update_id + 1
        simp [advance, hle]
    · exact ih (advance off u) h

/-- Witness for C4: the first handler invocation of the batch `[5, 6]` from
offset 0 observes offset 6 = 5 + 1. -/
theorem offset_advanced_before_handler_at_instance :
    (⟨6, true, ⟨5⟩⟩ : HandlerCall).update.update_id < (⟨6, true, ⟨5⟩⟩ : HandlerCall).offset
    ∧ ((⟨6, true, ⟨5⟩⟩ : HandlerCall).advanced = true →
        (⟨6, true, ⟨5⟩⟩ : HandlerCall).offset
          = (⟨6, true, ⟨5⟩⟩ : HandlerCall).update.update_id + 1) :=
  offset_advanced_before_handler [⟨5⟩, ⟨6⟩] 0 ⟨6, true, ⟨5⟩⟩ (by decide)

/-- C3 (evaluation at the spec's end-to-end scenario): running the embedded
`long_poll` from offset 0 over batch 1 = `[5, 6]` and batch 2 = `[6, 7]`
(server redelivers 6) gives final offset 8 and offset 7 after batch 1 — as
the claim says — but the handler IS invoked for the redelivered update 6 in
batch 2 (third trace entry, `advanced := false`): the loop only guards the
offset advance, it never skips the handler call, contradicting the claim
and the crate's own doc comment ("the handler will never be called with the
same update twice"). -/
theorem long_poll_redelivered_update_not_skipped :
    Bot.long_poll sample_decode sample_bot none [.body "batch1", .body "batch2"]
      = ({ offset := 8, url := sample_url },
         [⟨6, true, ⟨5⟩⟩, ⟨7, true, ⟨6⟩⟩, ⟨7, false, ⟨6⟩⟩, ⟨8, true, ⟨7⟩⟩],
         none) := rfl

/-- Unfolding: polling with no more modelled transport outcomes. -/
theorem long_poll_loop_nil (decode : String → Except String (Response (List Update)))
    (b : Bot) (timeout : Option Int) :
    long_poll_loop decode b timeout [] = (b, [], none) := rfl

/-- Unfolding: one poll iteration branches on the outcome of the request
(the poll's `get_updates` result is by construction `request_outcome`). -/
theorem long_poll_loop_cons (decode : String → Except String (Response (List Update)))
    (b : Bot) (timeout : Option Int) (f : Fetched) (rest : List Fetched) :
    long_poll_loop decode b timeout (f :: rest)
      = match request_outcome decode f with
        | .error e => (b, [], some e)
        | .ok us =>
          ((long_poll_loop decode { b with offset := (dispatch_updates b.offset us).1 }
              timeout rest).1,
           (dispatch_updates b.offset us).2
             ++ (long_poll_loop decode { b with offset := (dispatch_updates b.offset us).1 }
                  timeout rest).2.1,
           (long_poll_loop decode { b with offset := (dispatch_updates b.offset us).1 }
              timeout rest).2.2) := rfl

/-- One poll iteration whose request fails: the loop stops with that error;
the remaining outcomes are never consumed. -/
theorem long_poll_loop_cons_error (decode : String → Except String (Response (List Update)))
    (b : Bot) (timeout : Option Int) (f : Fetched) (rest : List Fetched) (e : Error)
    (h : request_outcome decode f = .error e) :
    long_poll_loop decode b timeout (f :: rest) = (b, [], some e) := by
  rw [long_poll_loop_cons, h]

/-- One poll iteration whose request succeeds: dispatch the batch, then
continue from the advanced offset. -/
theorem long_poll_loop_cons_ok (decode : String → Except String (Response (List Update)))
    (b : Bot) (timeout : Option Int) (f : Fetched) (rest : List Fetched) (us : List Update)
    (h : request_outcome decode f = .ok us) :
    long_poll_loop decode b timeout (f :: rest)
      = ((long_poll_loop decode { b with offset := (dispatch_updates b.offset us).1 }
            timeout rest).1,
         (dispatch_updates b.offset us).2
           ++ (long_poll_loop decode { b with offset := (dispatch_updates b.offset us).1 }
                timeout rest).2.1,
         (long_poll_loop decode { b with offset := (dispatch_updates b.offset us).1 }
            timeout rest).2.2) := by
  rw [long_poll_loop_cons, h]

/-- A polling run never decreases the client's offset. -/
theorem long_poll_loop_mono (polls : List Fetched)
    (decode : String → Except String (Response (List Update)))
    (timeout : Option Int) (b : Bot) :
    b.offset ≤ (long_poll_loop decode b timeout polls).1.offset := by
  induction polls generalizing b with
  | nil => simp [long_poll_loop_nil]
  | cons f rest ih =>
    cases hout : request_outcome decode f with
    | error e => simp [long_poll_loop_cons_error decode b timeout f rest e hout]
    | ok us =>
      have h1 := dispatch_updates_mono us b.offset
      have h2 := ih { b with offset := (dispatch_updates b.offset us).1 }
      rw [long_poll_loop_cons_ok decode b timeout f rest us hout]
      exact le_trans h1 h2

/-- A polling run that advanced past nothing left the offset unchanged. -/
theorem long_poll_loop_advanced_nil (polls : List Fetched)
    (decode : String → Except String (Response (List Update)))
    (timeout : Option Int) (b : Bot)
    (h : advanced_ids (long_poll_loop decode b timeout polls).2.1 = []) :
    (long_poll_loop decode b timeout polls).1.offset = b.offset := by
  induction polls generalizing b with
  | nil => rfl
  | cons f rest ih =>
    cases hout : request_outcome decode f with
    | error e => rw [long_poll_loop_cons_error decode b timeout f rest e hout]
    | ok us =>
      rw [long_poll_loop_cons_ok decode b timeout f rest us hout] at h ⊢
      dsimp only at h ⊢
      rw [advanced_ids_append, List.append_eq_nil] at h
      have hd := dispatch_updates_advanced_nil us b.offset h.1
      have hl := ih { b with offset := (dispatch_updates b.offset us).1 } h.2
      exact hl.trans hd

/-- Every identifier advanced past in a polling run ends strictly below the
final offset: `i + 1 ≤ final offset`. -/
theorem long_poll_loop_mem_advanced (polls : List Fetched)
    (decode : String → Except String (Response (List Update)))
    (timeout : Option Int) (b : Bot) (i : Int)
    (h : i ∈ advanced_ids (long_poll_loop decode b timeout polls).2.1) :
    i + 1 ≤ (long_poll_loop decode b timeout polls).1.offset := by
  induction polls generalizing b with
  | nil => simp [long_poll_loop_nil, advanced_ids] at h
  | cons f rest ih =>
    cases hout : request_outcome decode f with
    | error e =>
      rw [long_poll_loop_cons_error decode b timeout f rest e hout] at h
      simp [advanced_ids] at h
    | ok us =>
      rw [long_poll_loop_cons_ok decode b timeout f rest us hout] at h ⊢
      dsimp only at h ⊢
      rw [advanced_ids_append, List.mem_append] at h
      rcases h with h | h
      · have h1 := dispatch_updates_mem_advanced us b.offset i h
        have h2 : (dispatch_updates b.offset us).1
            ≤ (long_poll_loop decode { b with offset := (dispatch_updates b.offset us).1 }
                timeout rest).1.offset :=
          long_poll_loop_mono rest decode timeout
            { b with offset := (dispatch_updates b.offset us).1 }
        omega
      · exact ih { b with offset := (dispatch_updates b.offset us).1 } h

/-- A polling run that advanced past something leaves the offset at exactly
one advanced identifier plus one (the last, hence largest, one). -/
theorem long_poll_loop_exists_last (polls : List Fetched)
    (decode : String → Except String (Response (List Update)))
    (timeout : Option Int) (b : Bot)
    (h : advanced_ids (long_poll_loop decode b timeout polls).2.1 ≠ []) :
    ∃ i ∈ advanced_ids (long_poll_loop decode b timeout polls).2.1,
      (long_poll_loop decode b timeout polls).1.offset = i + 1 := by
  induction polls generalizing b with
  | nil => simp [long_poll_loop_nil, advanced_ids] at h
  | cons f rest ih =>
    cases hout : request_outcome decode f with
    | error e =>
      rw [long_poll_loop_cons_error decode b timeout f rest e hout] at h
      simp [advanced_ids] at h
    | ok us =>
      rw [long_poll_loop_cons_ok decode b timeout f rest us hout] at h ⊢
      dsimp only at h ⊢
      rw [advanced_ids_append] at h ⊢
      by_cases hnil : advanced_ids (long_poll_loop decode
          { b with offset := (dispatch_updates b.offset us).1 } timeout rest).2.1 = []
      · have hoff := long_poll_loop_advanced_nil rest decode timeout
          { b with offset := (dispatch_updates b.offset us).1 } hnil
        have hd : advanced_ids (dispatch_updates b.offset us).2 ≠ [] := by
          intro hd0
          apply h
          rw [hd0, hnil]
          rfl
        obtain ⟨i, hi, hfin⟩ := dispatch_updates_exists_last us b.offset hd
        refine ⟨i, by rw [List.mem_append]; exact Or.inl hi, ?_⟩
        rw [hoff]
        exact hfin
      · obtain ⟨i, hi, hfin⟩ := ih { b with offset := (dispatch_updates b.offset us).1 } hnil
        exact ⟨i, by rw [List.mem_append]; exact Or.inr hi, hfin⟩

/-- C2: the offset starts at 0 at construction, never decreases across a
`long_poll` run, and after any run equals `1 + max(update_id)` over all
updates ever advanced past — stated as: a run that advanced past nothing
leaves the offset unchanged (so a fresh client stays at 0), every advanced
identifier `i` satisfies `i + 1 ≤ final offset`, and some advanced
identifier attains `final offset = i + 1`; together, the final offset is
one more than the maximum advanced-past identifier. -/
theorem offset_starts_zero_nondecreasing_one_plus_max :
    (∀ (u : Url), Bot.new (.ok u) = some { offset := 0, url := u })
    ∧ (∀ (decode : String → Except String (Response (List Update))) (b : Bot)
        (timeout : Option Int) (polls : List Fetched),
        b.offset ≤ (Bot.long_poll decode b timeout polls).1.offset)
    ∧ (∀ (decode : String → Except String (Response (List Update))) (b : Bot)
        (timeout : Option Int) (polls : List Fetched),
        advanced_ids (Bot.long_poll decode b timeout polls).2.1 = [] →
        (Bot.long_poll decode b timeout polls).1.offset = b.offset)
    ∧ (∀ (decode : String → Except String (Response (List Update))) (b : Bot)
        (timeout : Option Int) (polls : List Fetched) (i : Int),
        i ∈ advanced_ids (Bot.long_poll decode b timeout polls).2.1 →
        i + 1 ≤ (Bot.long_poll decode b timeout polls).1.offset)
    ∧ (∀ (decode : String → Except String (Response (List Update))) (b : Bot)
        (timeout : Option Int) (polls : List Fetched),
        advanced_ids (Bot.long_poll decode b timeout polls).2.1 ≠ [] →
        ∃ i ∈ advanced_ids (Bot.long_poll decode b timeout polls).2.1,
          (Bot.long_poll decode b timeout polls).1.offset = i + 1) :=
  ⟨fun _ => rfl,
   fun decode b _timeout polls => long_poll_loop_mono polls decode _ b,
   fun decode b _timeout polls h => long_poll_loop_advanced_nil polls decode _ b h,
   fun decode b _timeout polls i h => long_poll_loop_mem_advanced polls decode _ b i h,
   fun decode b _timeout polls h => long_poll_loop_exists_last polls decode _ b h⟩

/-- Witness for C2: in the run over batch `[5, 6]` from offset 0, the
advanced identifier 6 ends below the final offset (7 = 6 + 1). -/
theorem offset_starts_zero_nondecreasing_one_plus_max_at_instance :
    (6 : Int) + 1 ≤ (Bot.long_poll sample_decode sample_bot none [.body "batch1"]).1.offset :=
  offset_starts_zero_nondecreasing_one_plus_max.2.2.2.1 sample_decode sample_bot none
    [.body "batch1"] 6 (by decide)

/-- The loop stops at the first failing poll with that error, and everything
after the failing poll is never consumed. -/
theorem long_poll_loop_first_error (goods : List Fetched)
    (decode : String → Except String (Response (List Update)))
    (timeout : Option Int) (b : Bot) (f : Fetched) (rest : List Fetched) (e : Error)
    (hg : ∀ g ∈ goods, ∃ us, request_outcome decode g = .ok us)
    (hf : request_outcome decode f = .error e) :
    (long_poll_loop decode b timeout (goods ++ f :: rest)).2.2 = some e
    ∧ long_poll_loop decode b timeout (goods ++ f :: rest)
        = long_poll_loop decode b timeout (goods ++ [f]) := by
  induction goods generalizing b with
  | nil =>
    rw [List.nil_append, List.nil_append,
      long_poll_loop_cons_error decode b timeout f rest e hf,
      long_poll_loop_cons_error decode b timeout f [] e hf]
    exact ⟨rfl, rfl⟩
  | cons g gs ih =>
    obtain ⟨us, hus⟩ := hg g (List.mem_cons_self g gs)
    have hg' : ∀ x ∈ gs, ∃ us, request_outcome decode x = .ok us :=
      fun x hx => hg x (List.mem_cons_of_mem g hx)
    obtain ⟨ih1, ih2⟩ := ih { b with offset := (dispatch_updates b.offset us).1 } hg'
    rw [List.cons_append, List.cons_append,
      long_poll_loop_cons_ok decode b timeout g (gs ++ f :: rest) us hus,
      long_poll_loop_cons_ok decode b timeout g (gs ++ [f]) us hus]
    exact ⟨ih1, by rw [ih2]⟩

/-- C5: `long_poll` terminates on the first transport, decode, API, or
invalid-state error from the polling request itself, propagating that
error unchanged to its caller: after any successful polls, the run ends
with exactly the failing poll's error, and the outcomes after it are never
consumed (the run equals the run truncated at the failing poll). Handler
execution is a plain unconditional call inside the loop, never wrapped in
any failure containment. -/
theorem long_poll_stops_at_first_poll_error
    (decode : String → Except String (Response (List Update)))
    (b : Bot) (timeout : Option Int)
    (goods : List Fetched) (f : Fetched) (rest : List Fetched) (e : Error)
    (hg : ∀ g ∈ goods, ∃ us, request_outcome decode g = .ok us)
    (hf : request_outcome decode f = .error e) :
    (Bot.long_poll decode b timeout (goods ++ f :: rest)).2.2 = some e
    ∧ Bot.long_poll decode b timeout (goods ++ f :: rest)
        = Bot.long_poll decode b timeout (goods ++ [f]) :=
  long_poll_loop_first_error goods decode
    (some (match timeout with | some t => t | none => 30)) b f rest e hg hf

/-- Witness for C5: one successful batch, then a transport failure; the run
ends with exactly that `Http` error and never consumes the batch queued
after the failure. -/
theorem long_poll_stops_at_first_poll_error_at_instance :
    (Bot.long_poll sample_decode sample_bot none
        ([.body "batch1"] ++ .sendErr "connection reset" :: [.body "batch2"])).2.2
      = some (Error.Http "connection reset")
    ∧ Bot.long_poll sample_decode sample_bot none
        ([.body "batch1"] ++ .sendErr "connection reset" :: [.body "batch2"])
      = Bot.long_poll sample_decode sample_bot none
          ([.body "batch1"] ++ [.sendErr "connection reset"]) :=
  long_poll_stops_at_first_poll_error sample_decode sample_bot none [.body "batch1"]
    (.sendErr "connection reset") [.body "batch2"] (Error.Http "connection reset")
    (by
      intro g hg
      rw [List.mem_singleton] at hg
      subst hg
      exact ⟨[⟨5⟩, ⟨6⟩], rfl⟩)
    rfl

end TelegramBot
